import Mathlib

/-!
# Verification of the vpoker concurrent table-state engine

Shallow embedding of the core of the `vpoker` repository:
the entity model and visibility filter (`pkg/poker/poker.go`),
the push fan-out (`Player.Dispatch` / `Player.Subscribe` /
`Player.Unsubscribe`, same file) and the HTTP mutation entry points
(`takeCard`, `updateTable`, `showCard`, `joinTable`, `shuffle` in the
main server file).  Go strings stay `String`, Go ints stay `Int`,
Go maps keyed by user id become lists of ids, and the table's
lock/notify control flow is reified as an event trace.

The `Table` aggregate itself (methods `Update`, `ReadLock`, `Join`,
`Take`, `Show`, `Shuffle`, `OtherPlayers` of `table.go`) is not part of
the available sources; those definitions are modelled from the spec and
say so in their doc comments.
-/

namespace VPoker

/-- Card side: a Go string type (`Side string`); `"cover"`, `"face"`,
or `""` on items whose embedded `Card` was never set. -/
def coverSide : String := "cover"

/-- The face-up card side constant (`Face Side = "face"`). -/
def faceSide : String := "face"

/-- `Class` of a table item (`card`, `chip`, `dealer`, `player`). -/
inductive Class where
  | card
  | chip
  | dealer
  | player
deriving DecidableEq, Repr

/-- `Card` record: suit, rank and side, all Go strings
(blank suit and rank are `""`). -/
structure Card where
  suit : String
  rank : String
  side : String
deriving DecidableEq, Repr

/-- `Chip` record: color and denomination. -/
structure Chip where
  color : String
  val : Int
deriving DecidableEq, Repr

/-- `TableItem`: embeds `Card` and `Chip`, carries the item class, the
owner's user id rendered as a string (`""` when unowned), the numeric
item id and the position. -/
structure TableItem where
  card : Card
  chip : Chip
  cls : Class
  ownerID : String
  id : Int
  x : Int
  y : Int
deriving DecidableEq, Repr

/-- `TableItem.Is`: membership in a class. -/
def TableItem.Is (ti : TableItem) (c : Class) : Bool := ti.cls == c

/-- `TableItem.IsOwnedBy`: the stored `owner_id` equals the given
user id (Go compares with `id.String()`; user ids are their string
rendering here). -/
def TableItem.IsOwnedBy (ti : TableItem) (id : String) : Bool :=
  ti.ownerID == id

/-- `TableItem.IsOwned`: the item is owned by anyone
(`OwnerID != ""`). -/
def TableItem.IsOwned (ti : TableItem) : Bool := ti.ownerID != ""

/-- Helper for the repeated `ti.Side = s` field update. -/
def setSide (ti : TableItem) (s : String) : TableItem :=
  { ti with card := { ti.card with side := s } }

/-- `TableItem.ApplyVisibilityRules`: acts on cards only; owners see
their card face up, cards owned by someone else are forced to cover
for everybody else, and a covered card has rank and suit blanked. -/
def TableItem.ApplyVisibilityRules (ti : TableItem) (curUser : String) :
    TableItem :=
  if !(ti.Is Class.card) then ti
  else
    let t1 := if ti.IsOwnedBy curUser then setSide ti faceSide else ti
    let t2 :=
      if ti.IsOwned && !(ti.IsOwnedBy curUser) then setSide t1 coverSide
      else t1
    if t2.card.side == coverSide then
      { t2 with card := { t2.card with rank := "", suit := "" } }
    else t2

end VPoker

namespace VPoker

/-- C1, branch facts packaged: non-cards pass through unchanged;
a card owned by the viewer comes back face up with its real rank and
suit; a card owned by a different non-empty owner comes back covered
and blanked; and a card whose filtered side is cover is blanked. -/
theorem applyVisibility_branches (ti : TableItem) (viewer : String) :
    (ti.cls ≠ Class.card → ti.ApplyVisibilityRules viewer = ti) ∧
    (ti.cls = Class.card → ti.ownerID = viewer →
      (ti.ApplyVisibilityRules viewer).card.side = faceSide ∧
      (ti.ApplyVisibilityRules viewer).card.rank = ti.card.rank ∧
      (ti.ApplyVisibilityRules viewer).card.suit = ti.card.suit) ∧
    (ti.cls = Class.card → ti.ownerID ≠ "" → ti.ownerID ≠ viewer →
      (ti.ApplyVisibilityRules viewer).card.side = coverSide ∧
      (ti.ApplyVisibilityRules viewer).card.rank = "" ∧
      (ti.ApplyVisibilityRules viewer).card.suit = "") ∧
    (ti.cls = Class.card →
      (ti.ApplyVisibilityRules viewer).card.side = coverSide →
      (ti.ApplyVisibilityRules viewer).card.rank = "" ∧
      (ti.ApplyVisibilityRules viewer).card.suit = "") := by
  refine ⟨?_, ?_, ?_, ?_⟩
  · intro h
    simp [TableItem.ApplyVisibilityRules, TableItem.Is, h]
  · intro hc ho
    simp [TableItem.ApplyVisibilityRules, TableItem.Is, TableItem.IsOwnedBy,
      TableItem.IsOwned, setSide, hc, ho, faceSide, coverSide]
  · intro hc hne hno
    simp [TableItem.ApplyVisibilityRules, TableItem.Is, TableItem.IsOwnedBy,
      TableItem.IsOwned, setSide, hc, hne, hno, faceSide, coverSide]
  · intro hc
    by_cases ho : ti.ownerID = viewer
    · simp [TableItem.ApplyVisibilityRules, TableItem.Is, TableItem.IsOwnedBy,
        TableItem.IsOwned, setSide, hc, ho, faceSide, coverSide]
    · by_cases hn : ti.ownerID = ""
      · have hv : ¬ ("" = viewer) := hn ▸ ho
        by_cases hs : ti.card.side = coverSide
        · simp [TableItem.ApplyVisibilityRules, TableItem.Is,
            TableItem.IsOwnedBy, TableItem.IsOwned, setSide, hc, ho, hn, hv, hs]
        · simp [TableItem.ApplyVisibilityRules, TableItem.Is,
            TableItem.IsOwnedBy, TableItem.IsOwned, setSide, hc, ho, hn, hv, hs]
      · simp [TableItem.ApplyVisibilityRules, TableItem.Is, TableItem.IsOwnedBy,
          TableItem.IsOwned, setSide, hc, ho, hn, faceSide, coverSide]

/-- Witness for `applyVisibility_branches` at a concrete card owned by
a different user than the viewer. -/
theorem applyVisibility_branches_witness :
    (({ card := { suit := "♠", rank := "A", side := faceSide },
        chip := { color := "", val := 0 },
        cls := Class.card, ownerID := "B", id := 7, x := 0, y := 0 :
        TableItem }).ApplyVisibilityRules "A").card.side = coverSide ∧
    (({ card := { suit := "♠", rank := "A", side := faceSide },
        chip := { color := "", val := 0 },
        cls := Class.card, ownerID := "B", id := 7, x := 0, y := 0 :
        TableItem }).ApplyVisibilityRules "A").card.rank = "" ∧
    (({ card := { suit := "♠", rank := "A", side := faceSide },
        chip := { color := "", val := 0 },
        cls := Class.card, ownerID := "B", id := 7, x := 0, y := 0 :
        TableItem }).ApplyVisibilityRules "A").card.suit = "" := by
  exact (applyVisibility_branches _ "A").2.2.1 rfl (by decide) (by decide)

/-- C6: the visibility filter is idempotent for every item and
viewer. -/
theorem applyVisibility_idempotent (ti : TableItem) (viewer : String) :
    (ti.ApplyVisibilityRules viewer).ApplyVisibilityRules viewer =
      ti.ApplyVisibilityRules viewer := by
  by_cases hc : ti.cls = Class.card
  · by_cases ho : ti.ownerID = viewer
    · simp [TableItem.ApplyVisibilityRules, TableItem.Is, TableItem.IsOwnedBy,
        TableItem.IsOwned, setSide, hc, ho, faceSide, coverSide]
    · by_cases hn : ti.ownerID = ""
      · have hv : ¬ ("" = viewer) := hn ▸ ho
        by_cases hs : ti.card.side = coverSide
        · simp [TableItem.ApplyVisibilityRules, TableItem.Is,
            TableItem.IsOwnedBy, TableItem.IsOwned, setSide, hc, ho, hn, hv, hs,
            coverSide]
        · simp [TableItem.ApplyVisibilityRules, TableItem.Is,
            TableItem.IsOwnedBy, TableItem.IsOwned, setSide, hc, ho, hn, hv, hs]
      · simp [TableItem.ApplyVisibilityRules, TableItem.Is, TableItem.IsOwnedBy,
          TableItem.IsOwned, setSide, hc, ho, hn, faceSide, coverSide]
  · simp [TableItem.ApplyVisibilityRules, TableItem.Is, hc]

end VPoker

namespace VPoker

/-- `httpx.NewError(status, message)`: the typed failure returned by a
handler. -/
structure HttpError where
  status : Nat
  message : String
deriving DecidableEq, Repr

/-- 403 "you are not at the table". -/
def errNotAtTable : HttpError := ⟨403, "you are not at the table"⟩

/-- 404 "item not found". -/
def errItemNotFound : HttpError := ⟨404, "item not found"⟩

/-- 400 "attempt to update readonly field .Class". -/
def errReadonlyClass : HttpError :=
  ⟨400, "attempt to update readonly field .Class"⟩

/-- 403 "this table is full". -/
def errTableFull : HttpError := ⟨403, "this table is full"⟩

/-- 403 for a show attempt on an item the user does not own. -/
def errShowForbidden : HttpError := ⟨403, "forbidden"⟩

/-- `maxPlayers = 3`. -/
def maxPlayers : Nat := 3

/-- `PushType`: the closed set of push event kinds. -/
inductive PushType where
  | refresh
  | playerJoined
  | updateItems
deriving DecidableEq, Repr

/-- `Push`: a push event with the items it carries and, for
`player_joined`, the seat map (modelled as the list of seated user
ids). -/
structure Push where
  type : PushType
  items : List TableItem
  players : List String
deriving DecidableEq, Repr

/-- `NewPushItems`. -/
def NewPushItems (items : List TableItem) : Push :=
  { type := PushType.updateItems, items := items, players := [] }

/-- `NewPushPlayerJoined`. -/
def NewPushPlayerJoined (players : List String) (items : List TableItem) :
    Push :=
  { type := PushType.playerJoined, items := items, players := players }

/-- `NewPushRefresh`. -/
def NewPushRefresh : Push :=
  { type := PushType.refresh, items := [], players := [] }

/-- The `Table` aggregate: id, seated players (the keys of the Go
`Players` map, i.e. user ids) and the table items.
Modelled from the spec: the `Table` struct of `table.go` is not under
the available sources; the spec describes it as a unique id, a keyed
collection of items and a user-id-to-Player mapping. -/
structure Table where
  id : String
  players : List String
  items : List TableItem
deriving DecidableEq, Repr

/-- `TableItemList.Get`: first item with the given id, `none` when
absent (the Go version returns a nil pointer). -/
def TableItemList.Get : List TableItem → Int → Option TableItem
  | [], _ => none
  | it :: rest, id => if it.id == id then some it else TableItemList.Get rest id

/-- In-place mutation of the item found by `TableItemList.Get`
(Go mutates through the returned pointer): replace the first item
carrying the given id. -/
def TableItemList.set : List TableItem → Int → TableItem → List TableItem
  | [], _, _ => []
  | it :: rest, id, v =>
      if it.id == id then v :: rest else it :: TableItemList.set rest id v

/-- Modelled from the spec: `Table.OtherPlayers` (`table.go`, not under
the available sources) is a pure read returning every currently seated
player except the given user. -/
def Table.OtherPlayers (t : Table) (user : String) : List String :=
  t.players.filter (fun p => p != user)

/-- Modelled from the spec: `TableItem.Take` (`table.go`, not under the
available sources) sets `owner_id` to the taking user and flips the
orientation to the cover default-for-others state. -/
def TableItem.Take (ti : TableItem) (user : String) : TableItem :=
  { ti with ownerID := user, card := { ti.card with side := coverSide } }

/-- Modelled from the spec: `TableItem.Show` (`table.go`, not under the
available sources) fails forbidden unless the item is currently owned
by the user, and otherwise flips the orientation to face-up. -/
def TableItem.Show (ti : TableItem) (user : String) :
    Except HttpError TableItem :=
  if ti.IsOwnedBy user then
    .ok { ti with card := { ti.card with side := faceSide } }
  else .error errShowForbidden

/-- Modelled from the spec: `Table.Join` (`table.go`, not under the
available sources) seats the user (next seat index = join order),
and inserts a player-marker item plus a full chip set for that seat;
it returns the newly created items. -/
def Table.Join (t : Table) (user : String) : Table × List TableItem :=
  let base : Int := (t.items.map (fun it => it.id)).foldr max 0 + 1
  let marker : TableItem :=
    { card := { suit := "", rank := "", side := "" },
      chip := { color := "", val := 0 },
      cls := Class.player, ownerID := user, id := base, x := 0, y := 0 }
  let chipVals : List Int := [1, 5, 10, 25, 50]
  let chips : List TableItem :=
    (List.range chipVals.length).map (fun i =>
      { card := { suit := "", rank := "", side := "" },
        chip := { color := "", val := chipVals.getD i 0 },
        cls := Class.chip, ownerID := user, id := base + 1 + i,
        x := 0, y := 0 })
  let newItems := marker :: chips
  ({ t with players := t.players ++ [user], items := t.items ++ newItems },
   newItems)

/-- Modelled from the spec: `Table.Shuffle` (`table.go`, not under the
available sources) restarts the deck — every card item goes back to an
unowned, covered state (viewers are then told to refetch via a
`refresh` push). -/
def Table.Shuffle (t : Table) : Table :=
  { t with
    items := t.items.map (fun it =>
      if it.Is Class.card then
        { it with ownerID := "", card := { it.card with side := coverSide } }
      else it) }

/-- An event in the control-flow trace of a mutation entry point:
lock transitions, a push dispatched to one player's channel, and the
post-transaction write of `Face` onto the local copy in `takeCard`. -/
inductive Ev where
  | acquireExcl
  | releaseExcl
  | acquireShared
  | releaseShared
  | notify (recipient : String) (push : Push)
  | writeCopyFace
deriving DecidableEq, Repr

/-- Result of one mutation entry point: the table afterwards, the
outcome handed back to the HTTP layer, and the event trace. -/
structure EPResult (α : Type) where
  table : Table
  outcome : Except HttpError α
  trace : List Ev
deriving Repr

/-- `server.takeCard` transaction and aftermath: under the exclusive
lock it checks membership, looks the item up and takes it (the local
`updated` is a by-value copy of the stored item); after releasing the
lock it writes `Face` onto that copy, then under the shared lock it
notifies every other player with the copy. -/
def takeCard (t : Table) (id : Int) (user : String) : EPResult TableItem :=
  if user ∉ t.players then
    { table := t, outcome := .error errNotAtTable,
      trace := [Ev.acquireExcl, Ev.releaseExcl] }
  else
    match TableItemList.Get t.items id with
    | none =>
        { table := t, outcome := .error errItemNotFound,
          trace := [Ev.acquireExcl, Ev.releaseExcl] }
    | some item =>
        let taken := TableItem.Take item user
        let t' := { t with items := TableItemList.set t.items id taken }
        let updated := { taken with card := { taken.card with side := faceSide } }
        { table := t'
          outcome := .ok updated
          trace :=
            [Ev.acquireExcl, Ev.releaseExcl, Ev.writeCopyFace,
             Ev.acquireShared] ++
            (t'.OtherPlayers user).map
              (fun p => Ev.notify p (NewPushItems [updated])) ++
            [Ev.releaseShared] }

/-- Mutation tail of `updateItem` (the transaction body of
`server.updateTable`): applies the proposed x/y unconditionally, and
the proposed side only when the stored item is unowned or owned by the
requesting user. -/
def updateItemApply (dest src : TableItem) (curUser : String) : TableItem :=
  let d1 := { dest with x := src.x, y := src.y }
  if d1.card.side != src.card.side then
    if !(d1.IsOwned) || d1.IsOwnedBy curUser then
      { d1 with card := { d1.card with side := src.card.side } }
    else d1
  else d1

/-- `updateItem`: the transaction body of `server.updateTable`.
Fails forbidden when the user is not seated, not-found when the id is
unknown, bad-request when the proposed class differs from the stored
one; otherwise mutates the stored item via `updateItemApply` and
returns the mutated table together with that item. -/
def updateItem (t : Table) (src : TableItem) (curUser : String) :
    Except HttpError (Table × TableItem) :=
  if curUser ∉ t.players then .error errNotAtTable
  else
    match TableItemList.Get t.items src.id with
    | none => .error errItemNotFound
    | some dest =>
        if dest.cls != src.cls then .error errReadonlyClass
        else
          let d2 := updateItemApply dest src curUser
          .ok ({ t with items := TableItemList.set t.items src.id d2 }, d2)

/-- `server.updateTable`: runs `updateItem` under the exclusive lock,
collects the other players inside the lock, and notifies them after
the lock is released. -/
def updateTable (t : Table) (src : TableItem) (user : String) :
    EPResult TableItem :=
  match updateItem t src user with
  | .error e =>
      { table := t, outcome := .error e,
        trace := [Ev.acquireExcl, Ev.releaseExcl] }
  | .ok (t', upd) =>
      { table := t', outcome := .ok upd,
        trace :=
          [Ev.acquireExcl, Ev.releaseExcl] ++
          (t'.OtherPlayers user).map
            (fun p => Ev.notify p (NewPushItems [upd])) }

/-- `server.showCard`: under the exclusive lock checks membership,
looks the item up and shows it (forbidden unless owned by the user);
notifies the other players after the lock is released. -/
def showCard (t : Table) (id : Int) (user : String) : EPResult TableItem :=
  if user ∉ t.players then
    { table := t, outcome := .error errNotAtTable,
      trace := [Ev.acquireExcl, Ev.releaseExcl] }
  else
    match TableItemList.Get t.items id with
    | none =>
        { table := t, outcome := .error errItemNotFound,
          trace := [Ev.acquireExcl, Ev.releaseExcl] }
    | some item =>
        match TableItem.Show item user with
        | .error e =>
            { table := t, outcome := .error e,
              trace := [Ev.acquireExcl, Ev.releaseExcl] }
        | .ok item' =>
            let t' := { t with items := TableItemList.set t.items id item' }
            { table := t', outcome := .ok item',
              trace :=
                [Ev.acquireExcl, Ev.releaseExcl] ++
                (t'.OtherPlayers user).map
                  (fun p => Ev.notify p (NewPushItems [item'])) }

/-- `server.joinTable`: under the exclusive lock, an already-seated
user is a successful no-op; otherwise a full table fails with the
capacity error; otherwise the user joins. Other players are notified
with `player_joined` after the lock is released (nobody in the no-op
case, since `notifyThem` stays nil). The success value is the redirect
path. -/
def joinTable (t : Table) (user : String) : EPResult String :=
  if user ∈ t.players then
    { table := t, outcome := .ok ("/games/" ++ t.id),
      trace := [Ev.acquireExcl, Ev.releaseExcl] }
  else if maxPlayers ≤ t.players.length then
    { table := t, outcome := .error errTableFull,
      trace := [Ev.acquireExcl, Ev.releaseExcl] }
  else
    let j := t.Join user
    { table := j.1, outcome := .ok ("/games/" ++ t.id),
      trace :=
        [Ev.acquireExcl, Ev.releaseExcl] ++
        (j.1.OtherPlayers user).map
          (fun p => Ev.notify p (NewPushPlayerJoined j.1.players j.2)) }

/-- `server.shuffle`: under the exclusive lock checks membership and
reshuffles; other players get a `refresh` push after the lock is
released. -/
def shuffle (t : Table) (user : String) : EPResult String :=
  if user ∉ t.players then
    { table := t, outcome := .error errNotAtTable,
      trace := [Ev.acquireExcl, Ev.releaseExcl] }
  else
    let t' := t.Shuffle
    { table := t', outcome := .ok ("/games/" ++ t.id),
      trace :=
        [Ev.acquireExcl, Ev.releaseExcl] ++
        (t'.OtherPlayers user).map (fun p => Ev.notify p NewPushRefresh) }

/-- `noNotifyUnderLock depth tr`: scanning the trace with `depth` locks
currently held, every `notify` event happens with no lock held. -/
def noNotifyUnderLock : Nat → List Ev → Bool
  | _, [] => true
  | n, Ev.acquireExcl :: r => noNotifyUnderLock (n + 1) r
  | n, Ev.releaseExcl :: r => noNotifyUnderLock (n - 1) r
  | n, Ev.acquireShared :: r => noNotifyUnderLock (n + 1) r
  | n, Ev.releaseShared :: r => noNotifyUnderLock (n - 1) r
  | n, Ev.notify _ _ :: r => (n == 0) && noNotifyUnderLock n r
  | n, Ev.writeCopyFace :: r => noNotifyUnderLock n r

/-- A burst of notifications with no lock held is fine. -/
lemma noNotify_notifyList (ps : List String) (push : Push) :
    noNotifyUnderLock 0 (ps.map (fun p => Ev.notify p push)) = true := by
  induction ps with
  | nil => rfl
  | cons p r ih => simp [noNotifyUnderLock, ih]

/-- An exclusive lockdown that releases before the rest of the trace
does not affect the scan. -/
lemma noNotify_afterExcl (l : List Ev) :
    noNotifyUnderLock 0 (Ev.acquireExcl :: Ev.releaseExcl :: l) =
      noNotifyUnderLock 0 l := by
  simp [noNotifyUnderLock]


/-- An item found by id carries that id. -/
lemma get_id_eq (l : List TableItem) (id : Int) (it : TableItem)
    (h : TableItemList.Get l id = some it) : it.id = id := by
  induction l with
  | nil => simp [TableItemList.Get] at h
  | cons hd tl ih =>
      by_cases hh : hd.id = id
      · simp [TableItemList.Get, hh] at h
        rw [← h]
        exact hh
      · simp [TableItemList.Get, hh] at h
        exact ih h

/-- Looking an id up after the in-place mutation of that id yields the
mutated item, provided the mutation kept the id. -/
lemma get_set_self (l : List TableItem) (id : Int) (it v : TableItem)
    (h : TableItemList.Get l id = some it) (hv : v.id = id) :
    TableItemList.Get (TableItemList.set l id v) id = some v := by
  induction l with
  | nil => simp [TableItemList.Get] at h
  | cons hd tl ih =>
      by_cases hh : hd.id = id
      · simp [TableItemList.Get, TableItemList.set, hh, hv]
      · simp [TableItemList.Get, TableItemList.set, hh] at h ⊢
        exact ih h

/-- A concrete table: item 7 is an unowned ace of spades lying covered;
users `A` and `B` are seated. -/
def sampleCard7 : TableItem :=
  { card := { suit := "♠", rank := "A", side := coverSide },
    chip := { color := "", val := 0 },
    cls := Class.card, ownerID := "", id := 7, x := 10, y := 20 }

/-- The sample two-player table holding `sampleCard7`. -/
def sampleTable : Table :=
  { id := "t1", players := ["A", "B"], items := [sampleCard7] }

/-- C2: `updateTable`, `showCard`, `joinTable` and `shuffle` dispatch
pushes only after every lock is released, but `takeCard` runs its
`NotifyAll` inside the shared read lock: on the sample table the scan
of its trace fails. -/
theorem notify_dispatch_lock_discipline :
    (∀ t src u, noNotifyUnderLock 0 (updateTable t src u).trace = true) ∧
    (∀ t id u, noNotifyUnderLock 0 (showCard t id u).trace = true) ∧
    (∀ t u, noNotifyUnderLock 0 (joinTable t u).trace = true) ∧
    (∀ t u, noNotifyUnderLock 0 (shuffle t u).trace = true) ∧
    noNotifyUnderLock 0 (takeCard sampleTable 7 "A").trace = false := by
  refine ⟨?_, ?_, ?_, ?_, ?_⟩
  · intro t src u
    cases h : updateItem t src u with
    | error e => simp [updateTable, h, noNotifyUnderLock]
    | ok p =>
        simp [updateTable, h, noNotify_afterExcl, noNotify_notifyList]
  · intro t id u
    by_cases hu : u ∈ t.players
    · cases hg : TableItemList.Get t.items id with
      | none => simp [showCard, hu, hg, noNotifyUnderLock]
      | some item =>
          cases hs : TableItem.Show item u with
          | error e => simp [showCard, hu, hg, hs, noNotifyUnderLock]
          | ok item' =>
              simp [showCard, hu, hg, hs, noNotify_afterExcl,
                noNotify_notifyList]
    · simp [showCard, hu, noNotifyUnderLock]
  · intro t u
    by_cases hu : u ∈ t.players
    · simp [joinTable, hu, noNotifyUnderLock]
    · by_cases hl : maxPlayers ≤ t.players.length
      · simp [joinTable, hu, hl, noNotifyUnderLock]
      · simp [joinTable, hu, hl, noNotify_afterExcl, noNotify_notifyList]
  · intro t u
    by_cases hu : u ∈ t.players
    · simp [shuffle, hu, noNotify_afterExcl, noNotify_notifyList]
    · simp [shuffle, hu, noNotifyUnderLock]
  · rfl

/-- C3: `updateItem` fails forbidden for a user who is not seated,
fails bad-request when the proposed class differs from the stored one,
and otherwise writes `updateItemApply dest src user` into the table:
x/y always follow the proposal, the side follows the proposal exactly
when the item is unowned or owned by the requester, and an orientation
change by a non-owner is dropped while the position still moves. -/
theorem updateItem_spec (t : Table) (src : TableItem) (user : String) :
    (user ∉ t.players →
      updateItem t src user = .error errNotAtTable) ∧
    (∀ dest, user ∈ t.players →
      TableItemList.Get t.items src.id = some dest →
      dest.cls ≠ src.cls →
      updateItem t src user = .error errReadonlyClass) ∧
    (∀ dest, user ∈ t.players →
      TableItemList.Get t.items src.id = some dest →
      dest.cls = src.cls →
      updateItem t src user = .ok ({ t with items := TableItemList.set t.items src.id (updateItemApply dest src user) }, updateItemApply dest src user) ∧
      (updateItemApply dest src user).x = src.x ∧
      (updateItemApply dest src user).y = src.y ∧
      (updateItemApply dest src user).card.side =
        (if dest.ownerID = "" ∨ dest.ownerID = user then src.card.side
         else dest.card.side) ∧
      (dest.ownerID ≠ "" → dest.ownerID ≠ user →
        (updateItemApply dest src user).card.side = dest.card.side)) := by
  refine ⟨?_, ?_, ?_⟩
  · intro hu
    simp [updateItem, hu]
  · intro dest hu hg hcls
    simp [updateItem, hu, hg, hcls]
  · intro dest hu hg hcls
    have happ :
        (updateItemApply dest src user).x = src.x ∧
        (updateItemApply dest src user).y = src.y ∧
        (updateItemApply dest src user).card.side =
          (if dest.ownerID = "" ∨ dest.ownerID = user then src.card.side
           else dest.card.side) := by
      by_cases hsd : dest.card.side = src.card.side
      · by_cases hown : dest.ownerID = "" ∨ dest.ownerID = user
        · simp [updateItemApply, TableItem.IsOwned, TableItem.IsOwnedBy,
            hsd, hown]
        · simp [updateItemApply, TableItem.IsOwned, TableItem.IsOwnedBy,
            hsd, hown]
      · by_cases hown : dest.ownerID = "" ∨ dest.ownerID = user
        · rcases hown with hn | ho
          · simp [updateItemApply, TableItem.IsOwned, TableItem.IsOwnedBy,
              hsd, hn]
          · simp [updateItemApply, TableItem.IsOwned, TableItem.IsOwnedBy,
              hsd, ho]
        · push_neg at hown
          simp [updateItemApply, TableItem.IsOwned, TableItem.IsOwnedBy,
            hsd, hown.1, hown.2]
    refine ⟨?_, happ.1, happ.2.1, happ.2.2, ?_⟩
    · simp [updateItem, hu, hg, hcls]
    · intro hn ho
      rw [happ.2.2]
      simp [hn, ho]

/-- Card 7 once user `A` has taken it. -/
def ownedCard7 : TableItem := { sampleCard7 with ownerID := "A" }

/-- The sample table with card 7 owned by `A`. -/
def ownedTable : Table :=
  { id := "t1", players := ["A", "B"], items := [ownedCard7] }

/-- User `B`'s update proposal for card 7: new position, flipped
side. -/
def proposalByB : TableItem :=
  { ownedCard7 with
    card := { ownedCard7.card with side := faceSide }, x := 99, y := 98 }

/-- Witness for `updateItem_spec`: user `B` moves card 7, which is
owned by `A`, and flips its side in the proposal; the stored side
stays covered while the position follows the proposal. -/
theorem updateItem_spec_witness :
    updateItem ownedTable proposalByB "B" =
      .ok ({ ownedTable with
             items := [{ ownedCard7 with x := 99, y := 98 }] },
           { ownedCard7 with x := 99, y := 98 }) := by
  have h :=
    (updateItem_spec ownedTable proposalByB "B").2.2 ownedCard7
      (by decide) (by rfl) rfl
  rw [h.1]
  rfl

/-- C4: a join attempt by a user who is not seated at a table that
already holds `maxPlayers` (= 3) players fails with the capacity error
and changes nothing: the whole entry-point result is the untouched
table, the error, and a trace with no notification. -/
theorem joinTable_full (t : Table) (user : String)
    (hn : user ∉ t.players)
    (hlen : t.players.length = 3) :
    joinTable t user =
      { table := t, outcome := .error errTableFull,
        trace := [Ev.acquireExcl, Ev.releaseExcl] } := by
  have hl : maxPlayers ≤ t.players.length := by
    rw [hlen, maxPlayers]
  simp [joinTable, hn, hl]

/-- Witness for `joinTable_full` at a concrete three-player table. -/
theorem joinTable_full_witness :
    joinTable { id := "t1", players := ["A", "B", "C"], items := [] } "D" =
      { table := { id := "t1", players := ["A", "B", "C"], items := [] },
        outcome := .error errTableFull,
        trace := [Ev.acquireExcl, Ev.releaseExcl] } :=
  joinTable_full { id := "t1", players := ["A", "B", "C"], items := [] } "D"
    (by decide) (by rfl)

/-- C9: for a user who is already seated, `joinTable` is a successful
no-op: the table is unchanged (no new player, no new items), nobody is
notified, and the outcome is the redirect to the table page. -/
theorem joinTable_already_seated (t : Table) (user : String)
    (h : user ∈ t.players) :
    joinTable t user =
      { table := t, outcome := .ok ("/games/" ++ t.id),
        trace := [Ev.acquireExcl, Ev.releaseExcl] } := by
  simp [joinTable, h]

/-- Witness for `joinTable_already_seated` on the sample table. -/
theorem joinTable_already_seated_witness :
    joinTable sampleTable "A" =
      { table := sampleTable, outcome := .ok "/games/t1",
        trace := [Ev.acquireExcl, Ev.releaseExcl] } :=
  joinTable_already_seated sampleTable "A" (by decide)

/-- C5: for a seated user, `takeCard` fails not-found (table
untouched) when the id is unknown; on success the stored item becomes
`it.Take user` — owner set to the user, side at the cover default —
while the response carries a by-value copy of it with side face. -/
theorem takeCard_spec (t : Table) (id : Int) (user : String)
    (hu : user ∈ t.players) :
    (TableItemList.Get t.items id = none →
      takeCard t id user =
        { table := t, outcome := .error errItemNotFound,
          trace := [Ev.acquireExcl, Ev.releaseExcl] }) ∧
    (∀ it, TableItemList.Get t.items id = some it →
      (takeCard t id user).table =
        { t with items := TableItemList.set t.items id (it.Take user) } ∧
      TableItemList.Get (takeCard t id user).table.items id =
        some (it.Take user) ∧
      (it.Take user).ownerID = user ∧
      (it.Take user).card.side = coverSide ∧
      (takeCard t id user).outcome =
        .ok { it.Take user with
              card := { (it.Take user).card with side := faceSide } }) := by
  constructor
  · intro hg
    simp [takeCard, hu, hg]
  · intro it hg
    have hid : (it.Take user).id = id := by
      have := get_id_eq t.items id it hg
      simp [TableItem.Take, this]
    refine ⟨?_, ?_, ?_, ?_, ?_⟩
    · simp [takeCard, hu, hg]
    · simp only [takeCard, hu, hg]
      simp only [not_true, if_false]
      exact get_set_self t.items id it (it.Take user) hg hid
    · simp [TableItem.Take]
    · simp [TableItem.Take]
    · simp [takeCard, hu, hg, TableItem.Take]

/-- Witness for `takeCard_spec`: user `A` takes the unowned card 7 on
the sample table. -/
theorem takeCard_spec_witness :
    (takeCard sampleTable 7 "A").outcome =
      .ok { sampleCard7.Take "A" with
            card := { (sampleCard7.Take "A").card with side := faceSide } } ∧
    TableItemList.Get (takeCard sampleTable 7 "A").table.items 7 =
      some (sampleCard7.Take "A") := by
  have h :=
    (takeCard_spec sampleTable 7 "A" (by decide)).2 sampleCard7 (by rfl)
  exact ⟨h.2.2.2.2, h.2.1⟩

/-- C10: on the success path of `takeCard` the `Face` write lands on
the by-value copy strictly between the exclusive-lock release and the
shared-lock acquisition, and it does not reach the stored item: the
table keeps `it.Take user`, whose side is the cover constant, while
the returned copy's side is the face constant. -/
theorem takeCard_face_write_frame (t : Table) (id : Int) (user : String)
    (it : TableItem)
    (hu : user ∈ t.players)
    (hg : TableItemList.Get t.items id = some it) :
    ∃ upd ns,
      (takeCard t id user).outcome = .ok upd ∧
      upd.card.side = faceSide ∧
      TableItemList.Get (takeCard t id user).table.items id =
        some (it.Take user) ∧
      (it.Take user).card.side = coverSide ∧
      (takeCard t id user).trace =
        [Ev.acquireExcl, Ev.releaseExcl, Ev.writeCopyFace,
         Ev.acquireShared] ++ ns ++ [Ev.releaseShared] ∧
      (∀ e ∈ ns, ∃ p push, e = Ev.notify p push) := by
  have hid : (it.Take user).id = id := by
    have := get_id_eq t.items id it hg
    simp [TableItem.Take, this]
  refine ⟨{ it.Take user with
            card := { (it.Take user).card with side := faceSide } },
          (({ t with items := TableItemList.set t.items id (it.Take user) } :
              Table).OtherPlayers user).map
            (fun p => Ev.notify p
              (NewPushItems
                [{ it.Take user with
                   card := { (it.Take user).card with side := faceSide } }])),
          ?_, ?_, ?_, ?_, ?_, ?_⟩
  · simp [takeCard, hu, hg, TableItem.Take]
  · rfl
  · simp only [takeCard, hu, hg]
    simp only [not_true, if_false]
    exact get_set_self t.items id it (it.Take user) hg hid
  · rfl
  · simp [takeCard, hu, hg, TableItem.Take]
  · intro e he
    rcases List.mem_map.mp he with ⟨p, _, rfl⟩
    exact ⟨p, _, rfl⟩

/-- Witness for `takeCard_face_write_frame` on the sample table. -/
theorem takeCard_face_write_frame_witness :
    ∃ upd ns,
      (takeCard sampleTable 7 "A").outcome = .ok upd ∧
      upd.card.side = faceSide ∧
      TableItemList.Get (takeCard sampleTable 7 "A").table.items 7 =
        some (sampleCard7.Take "A") ∧
      (sampleCard7.Take "A").card.side = coverSide ∧
      (takeCard sampleTable 7 "A").trace =
        [Ev.acquireExcl, Ev.releaseExcl, Ev.writeCopyFace,
         Ev.acquireShared] ++ ns ++ [Ev.releaseShared] ∧
      (∀ e ∈ ns, ∃ p push, e = Ev.notify p push) :=
  takeCard_face_write_frame sampleTable 7 "A" sampleCard7 (by decide) (by rfl)

end VPoker

namespace VPoker

/-- A Go channel of pushes: whether it is still open, and the events
successfully sent into it. -/
structure Chan where
  isOpen : Bool
  sent : List Push
deriving DecidableEq, Repr

/-- `Player` as the push fan-out sees it: a name (for the log line)
and the optional attached updates channel. -/
structure Player where
  name : String
  updates : Option Chan
deriving DecidableEq, Repr

/-- Sending on a channel: enqueues when the channel is open; sending
on a closed channel panics. -/
def chanSend (c : Chan) (p : Push) : Except String Chan :=
  if c.isOpen then .ok { c with sent := c.sent ++ [p] }
  else .error "send on closed channel"

/-- The body of `Player.Dispatch` without the deferred recover: if a
channel is attached, send into it; the error value is the panic. -/
def Player.DispatchCore (p : Player) (push : Push) : Except String Player :=
  match p.updates with
  | none => .ok p
  | some c =>
      match chanSend c push with
      | .ok c2 => .ok { p with updates := some c2 }
      | .error e => .error e

/-- What a call to `Player.Dispatch` did. -/
inductive DispatchOutcome where
  | enqueued
  | dropped
  | panicTrapped (msg : String)
deriving DecidableEq, Repr

/-- `Player.Dispatch`: the core wrapped in the `defer`/`recover` —
a panic inside the body is trapped and logged, never propagated, and
the function always returns normally to the caller. -/
def Player.Dispatch (p : Player) (push : Push) : Player × DispatchOutcome :=
  match Player.DispatchCore p push with
  | .ok p2 => (p2, if p.updates.isSome then .enqueued else .dropped)
  | .error e => (p, .panicTrapped e)

end VPoker

namespace VPoker

/-- C7: `Dispatch` enqueues onto an attached open channel, silently
drops the event when no channel is attached, and when the attached
channel was already closed the send panics inside `DispatchCore` but
`Dispatch` traps it and still returns normally. -/
theorem dispatch_spec (p : Player) (push : Push) :
    (p.updates = none → p.Dispatch push = (p, DispatchOutcome.dropped)) ∧
    (∀ c, p.updates = some c → c.isOpen = true →
      p.Dispatch push =
        ({ p with updates := some { c with sent := c.sent ++ [push] } },
         DispatchOutcome.enqueued)) ∧
    (∀ c, p.updates = some c → c.isOpen = false →
      Player.DispatchCore p push = .error "send on closed channel" ∧
      p.Dispatch push =
        (p, DispatchOutcome.panicTrapped "send on closed channel")) := by
  refine ⟨?_, ?_, ?_⟩
  · intro h
    simp [Player.Dispatch, Player.DispatchCore, h]
  · intro c hc hopen
    simp [Player.Dispatch, Player.DispatchCore, chanSend, hc, hopen]
  · intro c hc hclosed
    constructor
    · simp [Player.DispatchCore, chanSend, hc, hclosed]
    · simp [Player.Dispatch, Player.DispatchCore, chanSend, hc, hclosed]

/-- Witness for `dispatch_spec`: dispatching to a player whose channel
was concurrently closed neither crashes nor mutates the player. -/
theorem dispatch_spec_witness :
    Player.DispatchCore { name := "A", updates := some { isOpen := false, sent := [] } }
        NewPushRefresh = .error "send on closed channel" ∧
    Player.Dispatch { name := "A", updates := some { isOpen := false, sent := [] } }
        NewPushRefresh =
      ({ name := "A", updates := some { isOpen := false, sent := [] } },
       DispatchOutcome.panicTrapped "send on closed channel") :=
  (dispatch_spec { name := "A", updates := some { isOpen := false, sent := [] } }
      NewPushRefresh).2.2 { isOpen := false, sent := [] } rfl rfl

/-- Subscription lifecycle state of one player: the id of the channel
currently attached (callers create one fresh channel per connection,
identified here by a number), every id ever attached, and the ids
closed so far. -/
structure SubWorld where
  attached : Option Nat
  everAttached : List Nat
  closedChans : List Nat
deriving DecidableEq, Repr

/-- A player that has never been subscribed. -/
def SubWorld.init : SubWorld :=
  { attached := none, everAttached := [], closedChans := [] }

/-- `Player.Subscribe` with channel `c`: when a previous channel is
attached it is closed first (a double close would panic and be
recovered, leaving it closed), then `c` is attached. -/
def SubscribeOp (w : SubWorld) (c : Nat) : SubWorld :=
  match w.attached with
  | some old =>
      { attached := some c,
        everAttached := c :: w.everAttached,
        closedChans := old :: w.closedChans }
  | none =>
      { attached := some c,
        everAttached := c :: w.everAttached,
        closedChans := w.closedChans }

/-- `Player.Unsubscribe`: close and detach the attached channel;
a no-op when none is attached. -/
def UnsubscribeOp (w : SubWorld) : SubWorld :=
  match w.attached with
  | some old =>
      { attached := none,
        everAttached := w.everAttached,
        closedChans := old :: w.closedChans }
  | none => w

/-- One call in a player's subscription history. -/
inductive SubOp where
  | subscribe (c : Nat)
  | unsubscribe
deriving DecidableEq, Repr

/-- Replay a sequence of Subscribe/Unsubscribe calls. -/
def runOps : SubWorld → List SubOp → SubWorld
  | w, [] => w
  | w, SubOp.subscribe c :: r => runOps (SubscribeOp w c) r
  | w, SubOp.unsubscribe :: r => runOps (UnsubscribeOp w) r

/-- Every subscribe in the sequence brings a channel that was never
attached before (each viewer connection creates a new channel). -/
def freshRun : SubWorld → List SubOp → Prop
  | _, [] => True
  | w, SubOp.subscribe c :: r =>
      c ∉ w.everAttached ∧ freshRun (SubscribeOp w c) r
  | w, SubOp.unsubscribe :: r => freshRun (UnsubscribeOp w) r

/-- The channels from the player's history that are still open. -/
def SubWorld.openAttached (w : SubWorld) : List Nat :=
  w.everAttached.filter (fun c => decide (c ∉ w.closedChans))

/-- Invariant tying a subscription state together: the history has no
duplicates, only historical channels get closed, the attached channel
is historical, and every still-open historical channel is the attached
one. -/
def SubInv (w : SubWorld) : Prop :=
  w.everAttached.Nodup ∧
  (∀ c ∈ w.closedChans, c ∈ w.everAttached) ∧
  (∀ a, w.attached = some a → a ∈ w.everAttached) ∧
  (∀ c ∈ w.everAttached, c ∉ w.closedChans → w.attached = some c)

lemma subInv_init : SubInv SubWorld.init := by
  refine ⟨List.nodup_nil, ?_, ?_, ?_⟩ <;> simp [SubWorld.init]

lemma subInv_subscribe (w : SubWorld) (c : Nat) (hw : SubInv w)
    (hc : c ∉ w.everAttached) : SubInv (SubscribeOp w c) := by
  obtain ⟨hnd, hce, hae, hop⟩ := hw
  cases hatt : w.attached with
  | some old =>
      refine ⟨?_, ?_, ?_, ?_⟩ <;> simp only [SubscribeOp, hatt]
      · exact List.nodup_cons.mpr ⟨hc, hnd⟩
      · intro x hx
        rcases List.mem_cons.mp hx with rfl | hx'
        · exact List.mem_cons_of_mem _ (hae x hatt)
        · exact List.mem_cons_of_mem _ (hce x hx')
      · intro a ha
        rw [Option.some_inj] at ha
        exact ha ▸ List.mem_cons_self _ _
      · intro x hx hxc
        rcases List.mem_cons.mp hx with rfl | hx'
        · rfl
        · exfalso
          have hxo : x ∉ w.closedChans := fun hmem =>
            hxc (List.mem_cons_of_mem _ hmem)
          have := hop x hx' hxo
          rw [hatt, Option.some_inj] at this
          exact hxc (this ▸ List.mem_cons_self _ _)
  | none =>
      refine ⟨?_, ?_, ?_, ?_⟩ <;> simp only [SubscribeOp, hatt]
      · exact List.nodup_cons.mpr ⟨hc, hnd⟩
      · intro x hx
        exact List.mem_cons_of_mem _ (hce x hx)
      · intro a ha
        rw [Option.some_inj] at ha
        exact ha ▸ List.mem_cons_self _ _
      · intro x hx hxc
        rcases List.mem_cons.mp hx with rfl | hx'
        · rfl
        · exact absurd (hop x hx' hxc) (by rw [hatt]; exact fun h => Option.noConfusion h)

lemma subInv_unsubscribe (w : SubWorld) (hw : SubInv w) :
    SubInv (UnsubscribeOp w) := by
  obtain ⟨hnd, hce, hae, hop⟩ := hw
  cases hatt : w.attached with
  | some old =>
      refine ⟨?_, ?_, ?_, ?_⟩ <;> simp only [UnsubscribeOp, hatt]
      · exact hnd
      · intro x hx
        rcases List.mem_cons.mp hx with rfl | hx'
        · exact hae x hatt
        · exact hce x hx'
      · intro a ha
        exact Option.noConfusion ha
      · intro x hx hxc
        exfalso
        have hxo : x ∉ w.closedChans := fun hmem =>
          hxc (List.mem_cons_of_mem _ hmem)
        have := hop x hx hxo
        rw [hatt, Option.some_inj] at this
        exact hxc (this ▸ List.mem_cons_self _ _)
  | none =>
      simpa only [UnsubscribeOp, hatt] using ⟨hnd, hce, hae, hop⟩

lemma subInv_runOps (ops : List SubOp) :
    ∀ w, SubInv w → freshRun w ops → SubInv (runOps w ops) := by
  induction ops with
  | nil => intro w hw _; exact hw
  | cons op r ih =>
      intro w hw hf
      cases op with
      | subscribe c =>
          obtain ⟨hc, hrest⟩ := hf
          exact ih (SubscribeOp w c) (subInv_subscribe w c hw hc) hrest
      | unsubscribe =>
          exact ih (UnsubscribeOp w) (subInv_unsubscribe w hw) hf

/-- A duplicate-free list whose members all equal `a` has at most one
element. -/
lemma nodup_const_length_le_one (l : List Nat) (a : Nat)
    (hl : l.Nodup) (h : ∀ x ∈ l, x = a) : l.length ≤ 1 := by
  match l with
  | [] => simp
  | [x] => simp
  | x :: y :: r =>
      exfalso
      have hx := h x (by simp)
      have hy := h y (by simp)
      have : x ≠ y := by
        have := List.nodup_cons.mp hl
        exact fun hxy => this.1 (hxy ▸ List.mem_cons_self _ _)
      exact this (hx.trans hy.symm)

lemma subInv_open_le_one (w : SubWorld) (hw : SubInv w) :
    w.openAttached.length ≤ 1 := by
  obtain ⟨hnd, _, _, hop⟩ := hw
  cases hatt : w.attached with
  | none =>
      have hempty : w.openAttached = [] := by
        refine List.eq_nil_iff_forall_not_mem.mpr fun x hx => ?_
        have hx' := List.mem_filter.mp hx
        have hxo : x ∉ w.closedChans := of_decide_eq_true hx'.2
        have := hop x hx'.1 hxo
        rw [hatt] at this
        exact Option.noConfusion this
      rw [hempty]
      simp
  | some a =>
      refine nodup_const_length_le_one _ a (hnd.filter _) fun x hx => ?_
      have hx' := List.mem_filter.mp hx
      have hxo : x ∉ w.closedChans := of_decide_eq_true hx'.2
      have := hop x hx'.1 hxo
      rw [hatt, Option.some_inj] at this
      exact this.symm

/-- C8: `Subscribe` with a new channel closes the previously attached
channel (when there is one) before attaching the new one, and after
any sequence of Subscribe/Unsubscribe calls starting from a fresh
player, at most one of the channels ever attached is still open. -/
theorem subscribe_at_most_one_live (w : SubWorld) (c : Nat)
    (ops : List SubOp) :
    (∀ old, w.attached = some old →
      (SubscribeOp w c).attached = some c ∧
      old ∈ (SubscribeOp w c).closedChans) ∧
    (w.attached = none → (SubscribeOp w c).attached = some c) ∧
    (freshRun SubWorld.init ops →
      (runOps SubWorld.init ops).openAttached.length ≤ 1) := by
  refine ⟨?_, ?_, ?_⟩
  · intro old hatt
    constructor <;> simp [SubscribeOp, hatt]
  · intro hatt
    simp [SubscribeOp, hatt]
  · intro hf
    exact subInv_open_le_one _ (subInv_runOps ops SubWorld.init subInv_init hf)

/-- Witness for `subscribe_at_most_one_live`: channel 1 is closed by
the subscription of channel 2, and the replay
subscribe 1, subscribe 2, unsubscribe, subscribe 3 leaves at most one
open channel. -/
theorem subscribe_at_most_one_live_witness :
    (SubscribeOp { attached := some 1, everAttached := [1], closedChans := [] } 2).attached = some 2 ∧
    1 ∈ (SubscribeOp { attached := some 1, everAttached := [1], closedChans := [] } 2).closedChans ∧
    (runOps SubWorld.init
        [SubOp.subscribe 1, SubOp.subscribe 2, SubOp.unsubscribe,
         SubOp.subscribe 3]).openAttached.length ≤ 1 := by
  have h :=
    subscribe_at_most_one_live
      { attached := some 1, everAttached := [1], closedChans := [] } 2
      [SubOp.subscribe 1, SubOp.subscribe 2, SubOp.unsubscribe,
       SubOp.subscribe 3]
  refine ⟨(h.1 1 rfl).1, (h.1 1 rfl).2, h.2.2 ?_⟩
  simp [freshRun, SubscribeOp, UnsubscribeOp, SubWorld.init]

end VPoker
